import Mathlib

/-!
Verification of the password-manager repository (Tauri + Solid.js front-end
over a Rust vault backend). The front-end record-editing logic
(RecordDetail / ContentValue in the repository's Model/RecordDetail modules)
is embedded from the TypeScript source; the backend commands that are not
part of the checked-out sources (save_record, validate, generate_password,
login, enable_cloud) are modelled from the specification, as marked in their
doc comments.
-/

namespace PasswordManager

/-- The `Content` class of Model.tsx: a typed field of a record.
`id` is absent (`none`) until the row is first saved; `kind` is one of the
eleven kind strings used by the add-content menu; `value` crosses the
command boundary as a string. -/
structure Content where
  id : Option Nat
  label : String
  position : Nat
  required : Bool
  kind : String
  value : String
deriving DecidableEq

/-- The sensitive-kind test used verbatim in ContentValue
(`content.kind === "SensitiveText" || ... || content.kind === "TOTPSecret"`). -/
def isSensitiveKind (k : String) : Bool :=
  k == "SensitiveText" || k == "Password" || k == "BankCardNumber" || k == "TOTPSecret"

/-- The fixed mask shown for a hidden sensitive value
(ContentValue: `content.value = "*******************"`). -/
def maskValue : String := "*******************"

/-- The `content.id === undefined || content.id === 0` test of ContentValue:
the item has never been saved. -/
def isNewId : Option Nat → Bool
  | none => true
  | some n => n == 0

/-- The value-producing resource of ContentValue (RecordDetail module,
sensitive branch then Date branch). Returns the string put into
`content.value` together with the list of ids passed to `get_content_value`
(the decrypt-on-demand command); `storedValue` stands for the backend's
decrypted lookup, `today` for `new Date().toISOString().slice(0, 10)`.
The extra `password_strength` call made in the edit branch for Password
kinds takes the already-fetched value and issues no further decrypt. -/
def contentResourceValue (today : String) (storedValue : Nat → String)
    (edit visible : Bool) (c : Content) : String × List Nat :=
  if isSensitiveKind c.kind then
    match c.id with
    | none => ("", [])
    | some n =>
      if n == 0 then ("", [])
      else if edit || visible then (storedValue n, [n])
      else (maskValue, [])
  else if c.kind == "Date" && isNewId c.id then (today, [])
  else (c.value, [])

/-- `positionsFrom n l` holds when the `position` fields of `l` are the
consecutive integers `n, n+1, ...` in display order. -/
def positionsFrom : Nat → List Content → Bool
  | _, [] => true
  | n, c :: rest => c.position == n && positionsFrom (n + 1) rest

/-- The spec's contiguity invariant: positions form `0..N-1` in order. -/
def contiguous (l : List Content) : Bool := positionsFrom 0 l

/-- The renumbering pass of the delete handler
(`temp.forEach((item, index) => item.position = index)`), generalised to an
arbitrary starting index for the induction. -/
def renumber : Nat → List Content → List Content
  | _, [] => []
  | n, c :: rest => { c with position := n } :: renumber (n + 1) rest

/-- The "Move up" handler of RecordDetail: guarded by `index() === 0`,
it sets `position` of the two neighbours to their new indices and swaps
them (`allContent()![index() - 1].position = index(); content.position =
index() - 1; temp[index() - 1] = allContent()![index()]; temp[index()] =
allContent()![index() - 1]`). Out-of-range indices leave the list unchanged
(the button only exists for rendered indices). -/
def moveUp (l : List Content) (i : Nat) : List Content :=
  if i == 0 then l
  else
    match l[i - 1]?, l[i]? with
    | some a, some b =>
        (l.set (i - 1) { b with position := i - 1 }).set i { a with position := i }
    | _, _ => l

/-- The "Move down" handler of RecordDetail: guarded by
`index() === allContent()!.length - 1`, it sets `position` of the two
neighbours to their new indices and swaps them. -/
def moveDown (l : List Content) (i : Nat) : List Content :=
  if i + 1 == l.length then l
  else
    match l[i]?, l[i + 1]? with
    | some a, some b =>
        (l.set i { b with position := i }).set (i + 1) { a with position := i + 1 }
    | _, _ => l

/-- The delete handler of RecordDetail, as reachable by the user: the
delete button is only rendered under `Show when={!content.required}`, so a
required item is untouched; otherwise (confirmation accepted) the handler
invokes `delete_content` when `content.id !== undefined && content.id !==
0`, splices the item out and renumbers every `position` to its index.
Returns the new list and the ids sent to `delete_content`. -/
def deleteContentOp (l : List Content) (i : Nat) : List Content × List Nat :=
  match l[i]? with
  | none => (l, [])
  | some c =>
    if c.required then (l, [])
    else
      (renumber 0 (l.eraseIdx i),
        match c.id with
        | some n => if n == 0 then [] else [n]
        | none => [])

/-- The fresh item pushed by the add-content listener:
`new Content("", allContent()!.length, false, kind, "")`. -/
def newContentItem (kind : String) (position : Nat) : Content :=
  { id := none, label := "", position := position, required := false, kind := kind, value := "" }

/-- The add-content operation: the add button is only rendered under
`Show when={edit() && allContent()?.length! < 50}`, and the listener pushes
a fresh item whose `position` is the current length. -/
def addContent (l : List Content) (kind : String) : List Content :=
  if l.length < 50 then l ++ [newContentItem kind l.length] else l

theorem positionsFrom_iff (n : Nat) (l : List Content) :
    positionsFrom n l = true ↔ ∀ (i : Nat) (h : i < l.length), l[i].position = n + i := by
  induction l generalizing n with
  | nil => simp [positionsFrom]
  | cons c rest ih =>
    simp only [positionsFrom, Bool.and_eq_true, beq_iff_eq, ih]
    constructor
    · rintro ⟨h0, hrest⟩ i hi
      cases i with
      | zero => simpa using h0
      | succ j =>
        have hj : j < rest.length := by simpa using hi
        have := hrest j hj
        simp only [List.getElem_cons_succ]
        omega
    · intro h
      refine ⟨by simpa using h 0 (by simp), fun j hj => ?_⟩
      have := h (j + 1) (by simpa using Nat.succ_lt_succ hj)
      simp only [List.getElem_cons_succ] at this
      omega

theorem contiguous_iff (l : List Content) :
    contiguous l = true ↔ ∀ (i : Nat) (h : i < l.length), l[i].position = i := by
  simpa using positionsFrom_iff 0 l

theorem contiguous_moveUp (l : List Content) (i : Nat) (hc : contiguous l = true) :
    contiguous (moveUp l i) = true := by
  unfold moveUp
  split
  · exact hc
  · rename_i hne
    split
    · rename_i a b h1 h2
      obtain ⟨hi, hbi⟩ := List.getElem?_eq_some.mp h2
      obtain ⟨hi1, hai⟩ := List.getElem?_eq_some.mp h1
      have hi0 : i ≠ 0 := by
        intro h; rw [h] at hne; simp at hne
      rw [contiguous_iff]
      intro j hj
      have hj' : j < l.length := by simpa using hj
      rw [List.getElem_set]
      split
      · rename_i hij
        simp [← hij]
      · rename_i hij
        rw [List.getElem_set]
        split
        · rename_i hij1
          simp [← hij1]
        · exact (contiguous_iff l).mp hc j hj'
    · exact hc

theorem contiguous_moveDown (l : List Content) (i : Nat) (hc : contiguous l = true) :
    contiguous (moveDown l i) = true := by
  unfold moveDown
  split
  · exact hc
  · split
    · rename_i a b h1 h2
      obtain ⟨hi1, hbi⟩ := List.getElem?_eq_some.mp h2
      obtain ⟨hi, hai⟩ := List.getElem?_eq_some.mp h1
      rw [contiguous_iff]
      intro j hj
      have hj' : j < l.length := by simpa using hj
      rw [List.getElem_set]
      split
      · rename_i hij
        simp [← hij]
      · rename_i hij
        rw [List.getElem_set]
        split
        · rename_i hij1
          simp [← hij1]
        · exact (contiguous_iff l).mp hc j hj'
    · exact hc

theorem positionsFrom_renumber (l : List Content) (n : Nat) :
    positionsFrom n (renumber n l) = true := by
  induction l generalizing n with
  | nil => rfl
  | cons c rest ih => simp [renumber, positionsFrom, ih]

theorem contiguous_deleteContentOp (l : List Content) (i : Nat) (hc : contiguous l = true) :
    contiguous (deleteContentOp l i).1 = true := by
  unfold deleteContentOp
  split
  · exact hc
  · split
    · exact hc
    · exact positionsFrom_renumber (l.eraseIdx i) 0

theorem positionsFrom_append_singleton (l : List Content) (n : Nat) (c : Content)
    (h : positionsFrom n l = true) (hp : c.position = n + l.length) :
    positionsFrom n (l ++ [c]) = true := by
  induction l generalizing n with
  | nil =>
    simp only [List.nil_append, positionsFrom, Bool.and_eq_true, beq_iff_eq]
    refine ⟨?_, trivial⟩
    simpa using hp
  | cons d rest ih =>
    simp only [positionsFrom, Bool.and_eq_true, beq_iff_eq] at h
    simp only [List.cons_append, positionsFrom, Bool.and_eq_true, beq_iff_eq]
    refine ⟨h.1, ih (n + 1) h.2 ?_⟩
    simp only [List.length_cons] at hp
    omega

theorem contiguous_addContent (l : List Content) (kind : String) (hc : contiguous l = true) :
    contiguous (addContent l kind) = true := by
  unfold addContent
  split
  · exact positionsFrom_append_singleton l 0 (newContentItem kind l.length) hc (by simp [newContentItem])
  · exact hc

/-- C1: every user-facing content-list edit of RecordDetail — a move up, a
move down, a delete of a (non-required) item, or an addition of a new item
— keeps the `position` fields equal to the display indices, i.e. a
contiguous `0..N-1` sequence. -/
theorem claim1_positions_contiguous (l : List Content) (i : Nat) (kind : String)
    (hc : contiguous l = true) :
    contiguous (moveUp l i) = true ∧ contiguous (moveDown l i) = true ∧
    contiguous (deleteContentOp l i).1 = true ∧ contiguous (addContent l kind) = true :=
  ⟨contiguous_moveUp l i hc, contiguous_moveDown l i hc,
    contiguous_deleteContentOp l i hc, contiguous_addContent l kind hc⟩

/-- A concrete record detail content list: username, required password, note. -/
def demoPassword : Content :=
  { id := some 2, label := "Password", position := 1, required := true,
    kind := "Password", value := "" }

def demoList : List Content :=
  [{ id := some 1, label := "Username", position := 0, required := false,
     kind := "Text", value := "alice" },
   demoPassword,
   { id := none, label := "Note", position := 2, required := false,
     kind := "Text", value := "" }]

theorem claim1_positions_contiguous_witness :
    contiguous demoList = true ∧
    (contiguous (moveUp demoList 1) = true ∧ contiguous (moveDown demoList 1) = true ∧
     contiguous (deleteContentOp demoList 1).1 = true ∧
     contiguous (addContent demoList "Date") = true) :=
  ⟨by decide, claim1_positions_contiguous demoList 1 "Date" (by decide)⟩

/-- C2: a required content item cannot be removed through the user-facing
delete operation: the delete button is not rendered for it, so the content
list is unchanged and no `delete_content` request is issued. -/
theorem claim2_required_not_deletable (l : List Content) (i : Nat) (c : Content)
    (hmem : l[i]? = some c) (hreq : c.required = true) :
    deleteContentOp l i = (l, []) := by
  unfold deleteContentOp
  rw [hmem]
  simp [hreq]

theorem claim2_required_not_deletable_witness :
    demoList[1]? = some demoPassword ∧ demoPassword.required = true ∧
    deleteContentOp demoList 1 = (demoList, []) :=
  ⟨by decide, by decide,
    claim2_required_not_deletable demoList 1 demoPassword (by decide) (by decide)⟩

/-- C4: a Date content item that has never been saved (`id` absent or 0) is
presented with today's ISO-8601 date as its value, with no decrypt request. -/
theorem claim4_date_defaults_today (today : String) (stored : Nat → String)
    (edit visible : Bool) (c : Content) (hk : c.kind = "Date")
    (hid : isNewId c.id = true) :
    contentResourceValue today stored edit visible c = (today, []) := by
  unfold contentResourceValue
  rw [hk]
  simp [isSensitiveKind, hid]

def demoNewDate : Content :=
  { id := none, label := "Expiry", position := 0, required := false,
    kind := "Date", value := "" }

theorem claim4_date_defaults_today_witness :
    demoNewDate.kind = "Date" ∧ isNewId demoNewDate.id = true ∧
    contentResourceValue "2026-10-11" (fun _ => "") false false demoNewDate =
      ("2026-10-11", []) :=
  ⟨by decide, by decide,
    claim4_date_defaults_today "2026-10-11" (fun _ => "") false false demoNewDate
      (by decide) (by decide)⟩

/-- C5: for a sensitive content item, the decrypted value is requested from
`get_content_value` only while the item is edited or explicitly revealed;
otherwise a persisted item shows the fixed mask and a never-saved item shows
the empty string, with no decrypt request in either case, and any decrypt
request that is made names the item's own persisted id. -/
theorem claim5_sensitive_decrypt_on_demand (today : String) (stored : Nat → String)
    (edit visible : Bool) (c : Content) (hs : isSensitiveKind c.kind = true) :
    (isNewId c.id = true →
      contentResourceValue today stored edit visible c = ("", [])) ∧
    (isNewId c.id = false → edit = false → visible = false →
      contentResourceValue today stored edit visible c = (maskValue, [])) ∧
    (∀ n, n ∈ (contentResourceValue today stored edit visible c).2 →
      (edit = true ∨ visible = true) ∧ c.id = some n ∧ n ≠ 0) := by
  unfold contentResourceValue
  rw [hs]
  refine ⟨?_, ?_, ?_⟩
  · intro hid
    cases hcid : c.id with
    | none => simp
    | some n =>
      rw [hcid] at hid
      simp only [isNewId] at hid
      simp [hid]
  · intro hid he hv
    cases hcid : c.id with
    | none => rw [hcid] at hid; simp [isNewId] at hid
    | some n =>
      rw [hcid] at hid
      simp only [isNewId] at hid
      simp [hid, he, hv]
  · intro n hn
    cases hcid : c.id with
    | none =>
      rw [hcid] at hn
      simp at hn
    | some m =>
      rw [hcid] at hn
      cases hm : (m == 0) with
      | true => simp [hm] at hn
      | false =>
        cases he : edit with
        | true =>
          simp [hm, he] at hn
          subst hn
          exact ⟨Or.inl rfl, rfl, by simpa using hm⟩
        | false =>
          cases hv : visible with
          | true =>
            simp [hm, he, hv] at hn
            subst hn
            exact ⟨Or.inr rfl, rfl, by simpa using hm⟩
          | false => simp [hm, he, hv] at hn

def demoSensitive : Content :=
  { id := some 7, label := "PIN", position := 0, required := false,
    kind := "SensitiveText", value := "" }

theorem claim5_sensitive_decrypt_on_demand_witness :
    isSensitiveKind demoSensitive.kind = true ∧
    (isNewId demoSensitive.id = false → false = false → false = false →
      contentResourceValue "2026-10-11" (fun _ => "1234") false false demoSensitive =
        (maskValue, [])) :=
  ⟨by decide,
    (claim5_sensitive_decrypt_on_demand "2026-10-11" (fun _ => "1234") false false
      demoSensitive (by decide)).2.1⟩

/-- C10: the add-content button only exists while the record has fewer than
50 content items, so editing never grows a record's content list beyond 50. -/
theorem claim10_content_limit_50 (l : List Content) (kind : String)
    (h : l.length ≤ 50) :
    (addContent l kind).length ≤ 50 ∧ (50 ≤ l.length → addContent l kind = l) := by
  constructor
  · unfold addContent
    split
    · rename_i hlt
      simp only [List.length_append, List.length_cons, List.length_nil]
      omega
    · exact h
  · intro h50
    unfold addContent
    rw [if_neg (by omega)]

theorem claim10_content_limit_50_witness :
    demoList.length ≤ 50 ∧
    ((addContent demoList "Text").length ≤ 50 ∧
     (50 ≤ demoList.length → addContent demoList "Text" = demoList)) :=
  ⟨by decide, claim10_content_limit_50 demoList "Text" (by decide)⟩

/-- The `Record` class of Model.tsx: a titled entry grouping content
fields. `id` is absent until the first save. -/
structure Record where
  id : Option Nat
  title : String
  subtitle : String
  category : String
  created : String
  last_modified : String
deriving DecidableEq

/-- Modelled from the spec: the backend Vault Store state (the Rust side of
the `save_record` command is not among the checked-out sources). `records`
maps record ids to rows, `contents` maps a record id to its content rows,
`nextId` is the next id the store assigns. -/
structure VaultStore where
  nextId : Nat
  records : List (Nat × Record)
  contents : List (Nat × List Content)
deriving DecidableEq

/-- Modelled from the spec: sensitive content values are encrypted before
writing; `encrypt` abstracts the Crypto Core's field encryption. -/
def encryptContents (encrypt : String → String) (cs : List Content) : List Content :=
  cs.map fun c =>
    if isSensitiveKind c.kind then { c with value := encrypt c.value } else c

inductive DbError
  | StorageError
deriving DecidableEq

/-- Modelled from the spec: the successful commit of `save_record` — if
`record.id` is absent a fresh id is assigned and the record row plus its
content rows are inserted; otherwise the existing record row is updated and
its content rows replaced. Returns the new store and the saved record's id. -/
def commitSave (encrypt : String → String) (st : VaultStore) (r : Record)
    (cs : List Content) : VaultStore × Nat :=
  match r.id with
  | none =>
    let rid := st.nextId
    ({ nextId := rid + 1,
       records := (rid, { r with id := some rid }) :: st.records,
       contents := (rid, encryptContents encrypt cs) :: st.contents }, rid)
  | some rid =>
    ({ st with
       records := st.records.map fun p => if p.1 = rid then (rid, r) else p,
       contents := (rid, encryptContents encrypt cs) ::
         st.contents.filter (fun p => p.1 != rid) }, rid)

/-- Whether the transaction's row writes fail: the write touches `rows`
rows (one record row plus one per content item) and the oracle `failAt`
names the first failing row write, if any. -/
def failsWrite (failAt : Option Nat) (rows : Nat) : Bool :=
  match failAt with
  | some k => decide (k < rows)
  | none => false

/-- Modelled from the spec: `save_record(record, contents) -> Record.id`
inserts when `record.id` is absent and updates otherwise, encrypting
sensitive values before writing; the whole record+contents write is one
transaction, so if any of the `1 + contents.length` row writes fails the
store is left exactly as it was and an error is returned. -/
def save_record (encrypt : String → String) (st : VaultStore) (r : Record)
    (cs : List Content) (failAt : Option Nat) : VaultStore × Except DbError Nat :=
  if failsWrite failAt (1 + cs.length) then (st, Except.error DbError.StorageError)
  else
    let committed := commitSave encrypt st r cs
    (committed.1, Except.ok committed.2)

/-- C3: `save_record` inserts a fresh row when `record.id` is absent and
updates the existing row otherwise, returns the saved record's id, and is
atomic — when any row write of the transaction fails, the resulting stored
state is exactly the original store and an error is returned. -/
theorem claim3_save_record_insert_update_atomic (encrypt : String → String)
    (st : VaultStore) (r : Record) (cs : List Content) (failAt : Option Nat) :
    (failsWrite failAt (1 + cs.length) = true →
      save_record encrypt st r cs failAt = (st, Except.error DbError.StorageError)) ∧
    (failsWrite failAt (1 + cs.length) = false →
      (r.id = none →
        save_record encrypt st r cs failAt =
          ({ nextId := st.nextId + 1,
             records := (st.nextId, { r with id := some st.nextId }) :: st.records,
             contents := (st.nextId, encryptContents encrypt cs) :: st.contents },
           Except.ok st.nextId)) ∧
      (∀ j, r.id = some j →
        save_record encrypt st r cs failAt =
          ({ st with
             records := st.records.map fun p => if p.1 = j then (j, r) else p,
             contents := (j, encryptContents encrypt cs) ::
               st.contents.filter (fun p => p.1 != j) },
           Except.ok j))) := by
  constructor
  · intro hfail
    unfold save_record
    rw [hfail]
    rfl
  · intro hok
    constructor
    · intro hid
      unfold save_record
      rw [hok]
      simp only [Bool.false_eq_true, if_false]
      unfold commitSave
      rw [hid]
    · intro j hid
      unfold save_record
      rw [hok]
      simp only [Bool.false_eq_true, if_false]
      unfold commitSave
      rw [hid]

def demoRecord : Record :=
  { id := none, title := "Email account", subtitle := "alice@example.com",
    category := "Login", created := "2026-10-11T00:00:00Z",
    last_modified := "2026-10-11T00:00:00Z" }

def demoStore : VaultStore := { nextId := 5, records := [], contents := [] }

theorem claim3_save_record_insert_update_atomic_witness :
    (failsWrite (some 0) (1 + demoList.length) = true ∧
      save_record id demoStore demoRecord demoList (some 0) =
        (demoStore, Except.error DbError.StorageError)) ∧
    (failsWrite none (1 + demoList.length) = false ∧ demoRecord.id = none ∧
      save_record id demoStore demoRecord demoList none =
        ({ nextId := 6,
           records := [(5, { demoRecord with id := some 5 })],
           contents := [(5, encryptContents id demoList)] },
         Except.ok 5)) :=
  ⟨⟨by decide,
     (claim3_save_record_insert_update_atomic id demoStore demoRecord demoList
        (some 0)).1 (by decide)⟩,
   ⟨by decide, by decide,
     ((claim3_save_record_insert_update_atomic id demoStore demoRecord demoList
        none).2 (by decide)).1 (by decide)⟩⟩

/-- The eleven content kinds of the add-content menu, as the tagged-variant
type the spec prescribes for the backend Field Codec. -/
inductive Kind
  | Number
  | Text
  | LongText
  | SensitiveText
  | Date
  | Password
  | TOTPSecret
  | Url
  | Email
  | PhoneNumber
  | BankCardNumber
deriving DecidableEq

/-- A nonempty all-digit string (Field Codec "parses as numeric"). -/
def isNumericString (s : String) : Bool :=
  !s.isEmpty && s.toList.all Char.isDigit

/-- Splits a character list at every occurrence of `sep`. -/
def splitOnChar (sep : Char) : List Char → List (List Char)
  | [] => [[]]
  | c :: rest =>
    if c == sep then [] :: splitOnChar sep rest
    else
      match splitOnChar sep rest with
      | [] => [[c]]
      | g :: gs => (c :: g) :: gs

/-- Whether `pat` is an initial segment of `l`. -/
def listStartsWith : List Char → List Char → Bool
  | [], _ => true
  | _ :: _, [] => false
  | p :: ps, c :: cs => p == c && listStartsWith ps cs

/-- Modelled from the spec: an RFC-shaped address — one `@` separating a
nonempty local part from a nonempty domain containing a dot. -/
def isEmailShaped (s : String) : Bool :=
  match splitOnChar '@' s.toList with
  | [user, host] => !user.isEmpty && !host.isEmpty && host.contains '.'
  | _ => false

/-- Modelled from the spec: a well-formed URL — an http or https scheme
followed by a nonempty rest. -/
def isUrlShaped (s : String) : Bool :=
  (listStartsWith "http://".toList s.toList && decide (7 < s.length)) ||
  (listStartsWith "https://".toList s.toList && decide (8 < s.length))

/-- Modelled from the spec: an E.164-parseable international number — a
leading plus and 7 to 15 digits. -/
def isPhoneShaped (s : String) : Bool :=
  match s.toList with
  | '+' :: rest =>
    rest.all Char.isDigit && decide (7 ≤ rest.length) && decide (rest.length ≤ 15)
  | _ => false

/-- One step of the Luhn checksum: double a digit, subtracting 9 on
overflow. -/
def luhnDouble (d : Nat) : Nat :=
  if 9 < 2 * d then 2 * d - 9 else 2 * d

/-- Luhn checksum accumulator over the card digits listed least-significant
first, doubling every second digit. -/
def luhnSumAux : Bool → List Nat → Nat
  | _, [] => 0
  | doubleQ, d :: rest =>
    (if doubleQ then luhnDouble d else d) + luhnSumAux (!doubleQ) rest

/-- Modelled from the spec: a card number passes when it is 12–19 digits
whose Luhn checksum is divisible by 10. -/
def luhnValid (s : String) : Bool :=
  let ds := s.toList
  ds.all Char.isDigit && decide (12 ≤ ds.length) && decide (ds.length ≤ 19) &&
  luhnSumAux false ((ds.reverse).map fun c => c.toNat - 48) % 10 == 0

/-- Modelled from the spec: a valid base32 shared secret — nonempty over
the base32 alphabet. -/
def isBase32 (s : String) : Bool :=
  !s.isEmpty && s.toList.all fun c => "ABCDEFGHIJKLMNOPQRSTUVWXYZ234567".toList.contains c

/-- Modelled from the spec: an ISO-8601 calendar date `YYYY-MM-DD`. -/
def isIsoDate (s : String) : Bool :=
  match s.toList with
  | [y1, y2, y3, y4, '-', m1, m2, '-', d1, d2] =>
    [y1, y2, y3, y4, m1, m2, d1, d2].all Char.isDigit &&
    (let m := (m1.toNat - 48) * 10 + (m2.toNat - 48)
     let d := (d1.toNat - 48) * 10 + (d2.toNat - 48)
     decide (1 ≤ m) && decide (m ≤ 12) && decide (1 ≤ d) && decide (d ≤ 31))
  | _ => false

/-- Modelled from the spec: the backend `validate(kind, value)` command of
the Field Codec (its Rust implementation is not among the checked-out
sources) — a total function returning a user-displayable message for an
invalid value and nothing for a valid one, per the spec's validation table. -/
def validate (kind : Kind) (value : String) : Option String :=
  match kind with
  | Kind.Number => if isNumericString value then none else some "Value is not a number"
  | Kind.Text => if value.isEmpty then some "Value can not be empty" else none
  | Kind.LongText => none
  | Kind.SensitiveText => if value.isEmpty then some "Value can not be empty" else none
  | Kind.Date => if isIsoDate value then none else some "Value is not a valid date"
  | Kind.Password => if value.isEmpty then some "Password can not be empty" else none
  | Kind.TOTPSecret => if isBase32 value then none else some "Value is not a valid TOTP secret"
  | Kind.Url => if isUrlShaped value then none else some "Value is not a valid URL"
  | Kind.Email => if isEmailShaped value then none else some "Value is not a valid email"
  | Kind.PhoneNumber => if isPhoneShaped value then none else some "Value is not a valid phone number"
  | Kind.BankCardNumber => if luhnValid value then none else some "Value is not a valid card number"

/-- C6: `validate` is deterministic — the same kind and value always yield
the same verdict — and total on the eleven kinds: for every kind and value
it returns either a user-displayable message or nothing (it never throws),
with the spec's Email examples behaving as stated. -/
theorem claim6_validate_deterministic_total :
    (∀ (k : Kind) (v : String), validate k v = validate k v) ∧
    (∀ (k : Kind) (v : String),
      validate k v = none ∨ ∃ msg, validate k v = some msg) ∧
    validate Kind.Email "a@b.com" = none ∧
    validate Kind.Email "not-an-email" = some "Value is not a valid email" := by
  refine ⟨fun k v => rfl, fun k v => ?_, by decide, by decide⟩
  cases h : validate k v with
  | none => exact Or.inl rfl
  | some msg => exact Or.inr ⟨msg, rfl⟩

def numbersCharset : List Char := "0123456789".toList

def uppercaseCharset : List Char := "ABCDEFGHIJKLMNOPQRSTUVWXYZ".toList

def lowercaseCharset : List Char := "abcdefghijklmnopqrstuvwxyz".toList

def symbolsCharset : List Char := "!@#$%^&*()-_=+;:,.?".toList

/-- The character classes selected by the generator's four flags, in the
order of the command's arguments. -/
def selectedClasses (numbers uppercase lowercase symbols : Bool) : List (List Char) :=
  (if numbers then [numbersCharset] else []) ++
  (if uppercase then [uppercaseCharset] else []) ++
  (if lowercase then [lowercaseCharset] else []) ++
  (if symbols then [symbolsCharset] else [])

/-- A uniform pick from a character class, driven by one draw `r` of the
randomness stream. -/
def pickChar (cls : List Char) (r : Nat) : Char := cls.getD (r % cls.length) 'x'

def invalidParametersMsg : String := "Invalid parameters"

/-- One character from each selected class, drawn in class order. -/
def mandatoryChars (classes : List (List Char)) (rand : Nat → Nat) : List Char :=
  (List.range classes.length).map fun i => pickChar (classes.getD i []) (rand i)

/-- `count` characters drawn from the whole selected pool, consuming the
randomness stream from draw `start` on. -/
def fillerChars (pool : List Char) (rand : Nat → Nat) (start count : Nat) : List Char :=
  (List.range count).map fun j => pickChar pool (rand (start + j))

/-- Modelled from the spec: the backend
`generate_password(length, numbers, uppercase_letters, lowercase_letters,
symbols)` command (its Rust implementation is not among the checked-out
sources). It fails with invalid parameters when `length` is below the floor
of 1 or no class flag is set; otherwise it returns `length` characters,
starting with one from each selected class whenever `length` permits and
filling the rest from the union of the selected classes. The
cryptographically random source is abstracted as the stream `rand`. -/
def generate_password (length : Nat) (numbers uppercase lowercase symbols : Bool)
    (rand : Nat → Nat) : Except String String :=
  if length == 0 || (selectedClasses numbers uppercase lowercase symbols).isEmpty then
    Except.error invalidParametersMsg
  else if (selectedClasses numbers uppercase lowercase symbols).length ≤ length then
    Except.ok (String.mk
      (mandatoryChars (selectedClasses numbers uppercase lowercase symbols) rand ++
        fillerChars (selectedClasses numbers uppercase lowercase symbols).flatten rand
          (selectedClasses numbers uppercase lowercase symbols).length
          (length - (selectedClasses numbers uppercase lowercase symbols).length)))
  else
    Except.ok (String.mk
      (fillerChars (selectedClasses numbers uppercase lowercase symbols).flatten rand 0 length))

theorem mem_selectedClasses_pos (cls : List Char) (n u lo s : Bool)
    (h : cls ∈ selectedClasses n u lo s) : 0 < cls.length := by
  have h4 : cls = numbersCharset ∨ cls = uppercaseCharset ∨
      cls = lowercaseCharset ∨ cls = symbolsCharset := by
    cases n <;> cases u <;> cases lo <;> cases s <;>
      simp [selectedClasses] at h <;> tauto
  rcases h4 with h | h | h | h <;> subst h <;> decide

theorem selectedClasses_ne_empty (n u lo s : Bool)
    (h : n = true ∨ u = true ∨ lo = true ∨ s = true) :
    (selectedClasses n u lo s).isEmpty = false := by
  cases n <;> cases u <;> cases lo <;> cases s <;> simp_all [selectedClasses]

theorem pickChar_mem (cls : List Char) (r : Nat) (h : 0 < cls.length) :
    pickChar cls r ∈ cls := by
  unfold pickChar
  have hlt : r % cls.length < cls.length := Nat.mod_lt _ h
  rw [List.getD_eq_getElem?_getD, List.getElem?_eq_getElem hlt]
  simp only [Option.getD_some]
  exact List.getElem_mem hlt

theorem length_mandatoryChars (classes : List (List Char)) (rand : Nat → Nat) :
    (mandatoryChars classes rand).length = classes.length := by
  simp [mandatoryChars]

theorem length_fillerChars (pool : List Char) (rand : Nat → Nat) (start count : Nat) :
    (fillerChars pool rand start count).length = count := by
  simp [fillerChars]

theorem mandatoryChars_covers (classes : List (List Char)) (rand : Nat → Nat)
    (cls : List Char) (h : cls ∈ classes) (hpos : 0 < cls.length) :
    ∃ c, c ∈ mandatoryChars classes rand ∧ c ∈ cls := by
  obtain ⟨i, hi⟩ := List.mem_iff_get.mp h
  refine ⟨pickChar cls (rand i.1), ?_, pickChar_mem cls (rand i.1) hpos⟩
  unfold mandatoryChars
  refine List.mem_map.mpr ⟨i.1, List.mem_range.mpr i.2, ?_⟩
  have hD : classes.getD i.1 [] = cls := by
    rw [List.getD_eq_getElem?_getD, List.getElem?_eq_getElem i.2]
    simp only [Option.getD_some]
    rw [← List.get_eq_getElem]
    exact hi
  rw [hD]

/-- C7: `generate_password` fails with invalid parameters when the length
is 0 or no class flag is selected; otherwise it returns a password of
exactly the requested length containing at least one character from each
selected class whenever the length permits. -/
theorem claim7_generate_password (length : Nat) (n u lo s : Bool) (rand : Nat → Nat) :
    ((length = 0 ∨ (n = false ∧ u = false ∧ lo = false ∧ s = false)) →
      generate_password length n u lo s rand = Except.error invalidParametersMsg) ∧
    (0 < length → (n = true ∨ u = true ∨ lo = true ∨ s = true) →
      ∃ pw : String,
        generate_password length n u lo s rand = Except.ok pw ∧
        pw.length = length ∧
        ((selectedClasses n u lo s).length ≤ length →
          ∀ cls ∈ selectedClasses n u lo s, ∃ c, c ∈ pw.toList ∧ c ∈ cls)) := by
  constructor
  · intro h
    rcases h with h | ⟨hn, hu, hlo, hs⟩
    · subst h
      unfold generate_password
      simp
    · subst hn; subst hu; subst hlo; subst hs
      unfold generate_password
      simp [selectedClasses]
  · intro hlen hflags
    have hne : (selectedClasses n u lo s).isEmpty = false :=
      selectedClasses_ne_empty n u lo s hflags
    have hcond : (length == 0 || (selectedClasses n u lo s).isEmpty) = false := by
      rw [hne]
      simp only [Bool.or_false, beq_eq_false_iff_ne, ne_eq]
      omega
    by_cases hle : (selectedClasses n u lo s).length ≤ length
    · refine ⟨String.mk
        (mandatoryChars (selectedClasses n u lo s) rand ++
          fillerChars (selectedClasses n u lo s).flatten rand
            (selectedClasses n u lo s).length
            (length - (selectedClasses n u lo s).length)), ?_, ?_, ?_⟩
      · unfold generate_password
        rw [hcond]
        simp only [Bool.false_eq_true, if_false]
        rw [if_pos hle]
      · rw [String.length_mk, List.length_append, length_mandatoryChars,
          length_fillerChars]
        omega
      · intro _ cls hcls
        obtain ⟨c, hc1, hc2⟩ := mandatoryChars_covers (selectedClasses n u lo s) rand
          cls hcls (mem_selectedClasses_pos cls n u lo s hcls)
        refine ⟨c, ?_, hc2⟩
        simp only [String.toList]
        exact List.mem_append_left _ hc1
    · refine ⟨String.mk
        (fillerChars (selectedClasses n u lo s).flatten rand 0 length), ?_, ?_, ?_⟩
      · unfold generate_password
        rw [hcond]
        simp only [Bool.false_eq_true, if_false]
        rw [if_neg hle]
      · rw [String.length_mk, length_fillerChars]
      · intro hle2 cls hcls
        exact absurd hle2 hle

theorem claim7_generate_password_witness :
    generate_password 0 true true true true (fun k => k) =
      Except.error invalidParametersMsg ∧
    (∃ pw : String,
      generate_password 16 true true true true (fun k => k) = Except.ok pw ∧
      pw.length = 16 ∧
      ((selectedClasses true true true true).length ≤ 16 →
        ∀ cls ∈ selectedClasses true true true true, ∃ c, c ∈ pw.toList ∧ c ∈ cls)) :=
  ⟨(claim7_generate_password 0 true true true true (fun k => k)).1 (Or.inl rfl),
   (claim7_generate_password 16 true true true true (fun k => k)).2 (by decide)
     (Or.inl rfl)⟩

/-- The three UI modes returned by `initialize_window` and rendered by the
App component. -/
inductive Mode
  | Register
  | Login
  | Main
deriving DecidableEq

/-- The state of the login page as the user sees it: the rendered mode and
the error paragraph below the form. -/
structure LoginPageState where
  mode : Mode
  errorMessage : String
deriving DecidableEq

def authErrorMessage : String := "Wrong password"

/-- Modelled from the spec: the backend `login(password)` command (its Rust
implementation is not among the checked-out sources) — it succeeds exactly
when the entered password is the vault's master password and otherwise
returns an AuthError for display. -/
def login (master password : String) : Except String Unit :=
  if password = master then Except.ok () else Except.error authErrorMessage

/-- The submit handler of Login.tsx: it awaits the `login` command in a
try/catch; on success the backend re-initializes the window to Main, on
failure the catch stores the error string for display and nothing else
changes — the rendered mode stays as it was. -/
def loginSubmit (master : String) (st : LoginPageState) (password : String) :
    LoginPageState :=
  match login master password with
  | Except.ok _ => { st with mode := Mode.Main }
  | Except.error e => { st with errorMessage := e }

/-- C8: a login attempt with an incorrect master password fails with an
auth error that is displayed to the user, and the rendered mode stays
Login — the failed attempt changes nothing else. -/
theorem claim8_login_wrong_password (master password : String)
    (st : LoginPageState) (hmode : st.mode = Mode.Login)
    (hwrong : password ≠ master) :
    (loginSubmit master st password).mode = Mode.Login ∧
    (loginSubmit master st password).errorMessage = authErrorMessage := by
  unfold loginSubmit login
  rw [if_neg hwrong]
  exact ⟨hmode, rfl⟩

theorem claim8_login_wrong_password_witness :
    (LoginPageState.mk Mode.Login "").mode = Mode.Login ∧
    ("hunter2" : String) ≠ "Str0ng!Pass" ∧
    ((loginSubmit "Str0ng!Pass" (LoginPageState.mk Mode.Login "") "hunter2").mode =
        Mode.Login ∧
      (loginSubmit "Str0ng!Pass" (LoginPageState.mk Mode.Login "") "hunter2").errorMessage =
        authErrorMessage) :=
  ⟨rfl, by decide,
    claim8_login_wrong_password "Str0ng!Pass" "hunter2"
      (LoginPageState.mk Mode.Login "") rfl (by decide)⟩

/-- The CloudConfig of the spec's Sync Service: host address, username and
the write-once password. -/
structure CloudConfig where
  address : String
  username : String
  password : String
deriving DecidableEq

inductive CloudError
  | ConnectionError
  | AuthError
deriving DecidableEq

/-- The Sync Service state: at most one active configuration; its presence
means sync is enabled. -/
structure CloudState where
  config : Option CloudConfig
deriving DecidableEq

def cloudErrorMessage : CloudError → String
  | CloudError.ConnectionError => "Connection error"
  | CloudError.AuthError => "Authentication error"

/-- Modelled from the spec: the backend
`enable_cloud(address, username, password)` command (its Rust
implementation is not among the checked-out sources): it attempts the
initial handshake/upload, whose outcome is the oracle `handshake`; on
failure it returns the error and does not persist the config, on success it
stores the CloudConfig. -/
def enable_cloud (st : CloudState) (address username password : String)
    (handshake : Option CloudError) : CloudState × Option CloudError :=
  match handshake with
  | some e => (st, some e)
  | none =>
    ({ config := some { address := address, username := username, password := password } },
      none)

/-- The CloudForm state in Settings: whether `cloud_data` reports an active
config, the error paragraph, and the password input. -/
structure CloudFormState where
  status : Bool
  errorMessage : String
  passwordField : String
deriving DecidableEq

/-- The submit handler of CloudForm (Settings module): with no active
config it invokes `enable_cloud`; the catch displays the error message and
leaves the status as it was, while the success path clears the error and
password field and refetches the status. -/
def cloudFormSubmit (st : CloudState) (form : CloudFormState)
    (address username password : String) (handshake : Option CloudError) :
    CloudState × CloudFormState :=
  if form.status then
    ({ config := none }, { status := false, errorMessage := "", passwordField := "" })
  else
    match enable_cloud st address username password handshake with
    | (st2, some e) => (st2, { form with errorMessage := cloudErrorMessage e })
    | (st2, none) => (st2, { status := true, errorMessage := "", passwordField := "" })

/-- C9: when the initial handshake of an enable-cloud request fails, the
cloud configuration is not persisted — the whole sync state is exactly what
it was — the error is surfaced for display, and the form still reports no
active cloud config. -/
theorem claim9_enable_cloud_failure (st : CloudState) (form : CloudFormState)
    (address username password : String) (e : CloudError)
    (hstatus : form.status = false) :
    (cloudFormSubmit st form address username password (some e)).1 = st ∧
    (cloudFormSubmit st form address username password (some e)).1.config = st.config ∧
    (cloudFormSubmit st form address username password (some e)).2.errorMessage =
      cloudErrorMessage e ∧
    (cloudFormSubmit st form address username password (some e)).2.status = false := by
  unfold cloudFormSubmit enable_cloud
  rw [hstatus]
  simp [hstatus]

theorem claim9_enable_cloud_failure_witness :
    (CloudFormState.mk false "" "pw").status = false ∧
    ((cloudFormSubmit (CloudState.mk none) (CloudFormState.mk false "" "pw")
        "10.0.0.1:22" "alice" "pw" (some CloudError.ConnectionError)).1 =
      CloudState.mk none ∧
    (cloudFormSubmit (CloudState.mk none) (CloudFormState.mk false "" "pw")
        "10.0.0.1:22" "alice" "pw" (some CloudError.ConnectionError)).1.config =
      (CloudState.mk none).config ∧
    (cloudFormSubmit (CloudState.mk none) (CloudFormState.mk false "" "pw")
        "10.0.0.1:22" "alice" "pw" (some CloudError.ConnectionError)).2.errorMessage =
      cloudErrorMessage CloudError.ConnectionError ∧
    (cloudFormSubmit (CloudState.mk none) (CloudFormState.mk false "" "pw")
        "10.0.0.1:22" "alice" "pw" (some CloudError.ConnectionError)).2.status = false) :=
  ⟨rfl,
    claim9_enable_cloud_failure (CloudState.mk none) (CloudFormState.mk false "" "pw")
      "10.0.0.1:22" "alice" "pw" CloudError.ConnectionError rfl⟩

end PasswordManager
